import Mathlib

/-!
Verification of the request-dispatch and pagination layer of `twittertools.py`.

The Python module is shallowly embedded: each function of the source is
translated into an executable Lean definition.  Network interaction is
simulated by passing in the sequence of responses the remote endpoint would
produce; blocking `time.sleep(w)` calls are recorded as a list of the wait
values slept, and an uncaught Python exception is an `Except.error` value.
Python floats reached by the backoff arithmetic are powers of `3/2`, which
are exactly representable, so the waits are modelled as rationals.
-/

/-- A Python value appearing in a `kwargs` request mapping: an int or a str. -/
inductive PVal where
  | num (n : Int)
  | str (s : String)
deriving DecidableEq, Repr

/-- Python truthiness for the values that reach `if`-tests in the source:
`0` and `""` are falsy. -/
def PVal.truthyV : PVal → Bool
  | .num n => n != 0
  | .str s => s != ""

/-- Truthiness of an optional value (`None` is falsy). -/
def truthyO : Option PVal → Bool
  | Option.none => false
  | some v => v.truthyV

/-- A Python `kwargs` dictionary, as an association list keyed by strings. -/
abbrev Kwargs := List (String × PVal)

/-- Python dict assignment `d[k] = v`: the new binding shadows any previous one. -/
def setParam (kw : Kwargs) (k : String) (v : PVal) : Kwargs :=
  (k, v) :: kw.filter (fun p => p.1 != k)

lemma lookup_setParam_self (kw : Kwargs) (k : String) (v : PVal) :
    (setParam kw k v).lookup k = some v := by
  simp [setParam, List.lookup]

lemma lookup_filter_of_ne (l : Kwargs) (k kq : String) (h : kq ≠ k) :
    (l.filter (fun p => p.1 != k)).lookup kq = l.lookup kq := by
  induction l with
  | nil => rfl
  | cons a t ih =>
    by_cases hak : a.1 = k
    · have : (a.1 != k) = false := by simp [hak]
      simp only [List.filter_cons, this, Bool.false_eq_true, if_false]
      have : (kq == a.1) = false := by simp [hak, h]
      simp [List.lookup, this, ih]
    · have : (a.1 != k) = true := by simp [hak]
      simp only [List.filter_cons, this, if_true]
      by_cases hkq : kq = a.1
      · simp [List.lookup, hkq]
      · have : (kq == a.1) = false := by simp [hkq]
        simp [List.lookup, this, ih]

lemma lookup_setParam_ne (kw : Kwargs) (k kq : String) (v : PVal) (h : kq ≠ k) :
    (setParam kw k v).lookup kq = kw.lookup kq := by
  have : (kq == k) = false := by simp [h]
  simp [setParam, List.lookup, this, lookup_filter_of_ne _ _ _ h]

/-!
## The Dispatcher: `endpoint_request` and its inner `handle_http_error`

A call to the bound endpoint either returns a payload or raises a
`TwitterHTTPError` carrying an HTTP status code; a simulated run feeds the
retry loop one `Attempt` per call it makes.
-/

/-- One simulated outcome of invoking the bound endpoint callable. -/
inductive Attempt (α : Type) where
  | ok (payload : α)
  | err (code : Nat)
deriving DecidableEq, Repr

/-- Function `handle_http_error` from `twittertools.py`.  Returns the list of sleeps
performed and `some` updated wait value, or `Option.none` when the error is
re-raised.  Waits are in seconds; `60 * 15` and `60 * 30` are as in the
source. -/
def handle_http_error (ecode : Nat) (wait : ℚ) (retry : Bool := true) :
    List ℚ × Option ℚ :=
  if ecode = 401 ∨ ecode = 403 ∨ ecode = 404 then
    ([], some 0)
  else if ecode = 429 then
    if retry then ([60 * 15], some 1) else ([], some 0)
  else if ecode = 500 ∨ ecode = 502 ∨ ecode = 503 ∨ ecode = 504 then
    if retry then
      if wait * (3 / 2) < 60 * 30 then ([wait], some (wait * (3 / 2)))
      else ([wait], Option.none)
    else ([], Option.none)
  else ([], Option.none)

/-- The retry loop of `endpoint_request`, run against a simulated sequence of
attempt outcomes, starting from the given wait value.  Returns the sleeps
performed and either the raised status code, or the returned payload
(`Option.none` when the loop fell through with wait 0, which Python reports
as `None`).  An exhausted attempt list ends the simulation with `None`. -/
def runDispatch {α : Type} : List (Attempt α) → ℚ → List ℚ × Except Nat (Option α)
  | [], _ => ([], Except.ok Option.none)
  | Attempt.ok p :: _, w =>
    if w = 0 then ([], Except.ok Option.none) else ([], Except.ok (some p))
  | Attempt.err c :: rest, w =>
    if w = 0 then ([], Except.ok Option.none)
    else
      match handle_http_error c w true with
      | (sl, Option.none) => (sl, Except.error c)
      | (sl, some w2) => (sl ++ (runDispatch rest w2).1, (runDispatch rest w2).2)

/-- Function `endpoint_request`: the retry loop starts with `wait = 1`. -/
def endpoint_request {α : Type} (atts : List (Attempt α)) : List ℚ × Except Nat (Option α) :=
  runDispatch atts 1

lemma runDispatch_zero {α : Type} (atts : List (Attempt α)) :
    runDispatch atts 0 = ([], Except.ok Option.none) := by
  match atts with
  | [] => rfl
  | Attempt.ok p :: rest => simp [runDispatch]
  | Attempt.err c :: rest => simp [runDispatch]

lemma runDispatch_nil {α : Type} (w : ℚ) :
    runDispatch ([] : List (Attempt α)) w = ([], Except.ok Option.none) := rfl

lemma runDispatch_ok {α : Type} (p : α) (rest : List (Attempt α)) (w : ℚ)
    (hw : w ≠ 0) :
    runDispatch (Attempt.ok p :: rest) w = ([], Except.ok (some p)) := by
  rw [runDispatch, if_neg hw]

lemma runDispatch_err_retry {α : Type} (c : Nat) (rest : List (Attempt α)) (w : ℚ)
    (hw : w ≠ 0) (sl : List ℚ) (w2 : ℚ)
    (hh : handle_http_error c w true = (sl, some w2)) :
    runDispatch (Attempt.err c :: rest) w =
      (sl ++ (runDispatch rest w2).1, (runDispatch rest w2).2) := by
  rw [runDispatch, if_neg hw, hh]

lemma runDispatch_err_raise {α : Type} (c : Nat) (rest : List (Attempt α)) (w : ℚ)
    (hw : w ≠ 0) (sl : List ℚ)
    (hh : handle_http_error c w true = (sl, Option.none)) :
    runDispatch (Attempt.err c :: rest) w = (sl, Except.error c) := by
  rw [runDispatch, if_neg hw, hh]

lemma handle_5xx (c : Nat) (hc : c = 500 ∨ c = 502 ∨ c = 503 ∨ c = 504) (w : ℚ) :
    handle_http_error c w true =
      if w * (3 / 2) < 60 * 30 then ([w], some (w * (3 / 2))) else ([w], Option.none) := by
  rcases hc with rfl | rfl | rfl | rfl <;> simp [handle_http_error]

lemma backoff_pow_lt_ceiling_iff (k : Nat) : (3 / 2 : ℚ) ^ k < 1800 ↔ k ≤ 18 := by
  constructor
  · intro h
    by_contra hk
    push_neg at hk
    have h19 : (3 / 2 : ℚ) ^ 19 ≤ (3 / 2 : ℚ) ^ k :=
      pow_le_pow_right₀ (by norm_num) (by omega)
    have hbig : (1800 : ℚ) < (3 / 2 : ℚ) ^ 19 := by norm_num
    linarith
  · intro h
    have h18 : (3 / 2 : ℚ) ^ k ≤ (3 / 2 : ℚ) ^ 18 :=
      pow_le_pow_right₀ (by norm_num) h
    have hsmall : (3 / 2 : ℚ) ^ 18 < 1800 := by norm_num
    linarith

lemma backoff_pow_ne_zero (j : Nat) : (3 / 2 : ℚ) ^ j ≠ 0 :=
  pow_ne_zero j (by norm_num)

lemma range_map_pow_shift (n j : Nat) :
    ((3 / 2 : ℚ) ^ j) :: ((List.range n).map fun i => (3 / 2 : ℚ) ^ (j + 1 + i)) =
      (List.range (n + 1)).map fun i => (3 / 2 : ℚ) ^ (j + i) := by
  rw [List.range_succ_eq_map, List.map_cons, List.map_map]
  congr 1
  apply List.map_congr_left
  intro a ha
  show (3 / 2 : ℚ) ^ (j + 1 + a) = (3 / 2 : ℚ) ^ (j + (a + 1))
  congr 1
  omega

lemma runDispatch_5xx_aux {α : Type} (c : Nat)
    (hc : c = 500 ∨ c = 502 ∨ c = 503 ∨ c = 504) (p : α) :
    ∀ (n : Nat), ∀ (j : Nat), j ≤ 18 →
      runDispatch (List.replicate n (Attempt.err c) ++ [Attempt.ok p]) ((3 / 2 : ℚ) ^ j) =
        if j + n ≤ 18 then
          (((List.range n).map fun i => (3 / 2 : ℚ) ^ (j + i)), Except.ok (some p))
        else
          (((List.range (19 - j)).map fun i => (3 / 2 : ℚ) ^ (j + i)), Except.error c) := by
  intro n
  induction n with
  | zero =>
    intro j hj
    rw [if_pos (by omega)]
    simp [runDispatch_ok _ _ _ (backoff_pow_ne_zero j)]
  | succ n ih =>
    intro j hj
    have hw := backoff_pow_ne_zero j
    have hmul : (3 / 2 : ℚ) ^ j * (3 / 2) = (3 / 2 : ℚ) ^ (j + 1) := (pow_succ _ _).symm
    rw [List.replicate_succ, List.cons_append]
    by_cases hj17 : j ≤ 17
    · have hlt : (3 / 2 : ℚ) ^ j * (3 / 2) < 60 * 30 := by
        rw [hmul]
        have h1800 : (60 * 30 : ℚ) = 1800 := by norm_num
        rw [h1800, backoff_pow_lt_ceiling_iff]
        omega
      have hh : handle_http_error c ((3 / 2 : ℚ) ^ j) true =
          ([(3 / 2 : ℚ) ^ j], some ((3 / 2 : ℚ) ^ (j + 1))) := by
        rw [handle_5xx c hc, if_pos hlt, hmul]
      rw [runDispatch_err_retry c _ _ hw _ _ hh]
      rw [ih (j + 1) (by omega)]
      by_cases hcap : j + (n + 1) ≤ 18
      · rw [if_pos (by omega), if_pos hcap]
        simp only [List.singleton_append, List.cons_append, List.nil_append]
        rw [range_map_pow_shift]
      · rw [if_neg (by omega), if_neg hcap]
        have h19 : 19 - j = (19 - (j + 1)) + 1 := by omega
        rw [h19]
        simp only [List.singleton_append, List.cons_append, List.nil_append]
        rw [range_map_pow_shift]
    · have hj18 : j = 18 := by omega
      subst hj18
      have hge : ¬ ((3 / 2 : ℚ) ^ 18 * (3 / 2) < 60 * 30) := by
        rw [hmul]
        have h1800 : (60 * 30 : ℚ) = 1800 := by norm_num
        rw [h1800, backoff_pow_lt_ceiling_iff]
        omega
      have hh : handle_http_error c ((3 / 2 : ℚ) ^ 18) true =
          ([(3 / 2 : ℚ) ^ 18], Option.none) := by
        rw [handle_5xx c hc, if_neg hge]
      rw [runDispatch_err_raise c _ _ hw _ hh]
      rw [if_neg (by omega)]
      simp [List.range_succ]

/-- Claim C1: for every simulated sequence of recoverable server errors
(500, 502, 503 or 504) with retries enabled, the retry loop sleeps for the
current wait value on each failure, the wait after each retry is the
previous wait times `3/2`, starting from base wait 1; and the error is
re-raised as fatal exactly when the post-retry wait would reach the
30-minute ceiling, i.e. after the 19th failure, `(3/2)^19` being the first
wait exceeding 1800. -/
theorem dispatcher_5xx_backoff {α : Type} (c : Nat)
    (hc : c = 500 ∨ c = 502 ∨ c = 503 ∨ c = 504) (n : Nat) (p : α) :
    (∀ k : Nat, ((3 / 2 : ℚ) ^ k < 1800 ↔ k ≤ 18)) ∧
    endpoint_request (List.replicate n (Attempt.err c) ++ [Attempt.ok p]) =
      if n ≤ 18 then
        (((List.range n).map fun i => (3 / 2 : ℚ) ^ i), Except.ok (some p))
      else
        (((List.range 19).map fun i => (3 / 2 : ℚ) ^ i), Except.error c) := by
  refine ⟨backoff_pow_lt_ceiling_iff, ?_⟩
  have h := runDispatch_5xx_aux c hc p n 0 (by omega)
  rw [endpoint_request]
  rw [show (1 : ℚ) = (3 / 2 : ℚ) ^ 0 from (pow_zero _).symm]
  rw [h]
  simp

/-- Witness for C1 at `c = 500`, `n = 2`: two failing attempts sleep `1`
and `3/2` seconds, then the third attempt succeeds. -/
theorem dispatcher_5xx_backoff_witness :
    endpoint_request [Attempt.err 500, Attempt.err 500, Attempt.ok (7 : Nat)] =
      ([1, 3 / 2], Except.ok (some 7)) := by
  have h := (dispatcher_5xx_backoff 500 (Or.inl rfl) 2 (7 : Nat)).2
  rw [if_pos (by omega)] at h
  simpa [List.range_succ, List.replicate] using h

/-- Claim C2: a simulated 429 with retries enabled makes the dispatcher
sleep exactly once for `60 * 15 = 900` seconds, reset the wait to the base
value 1, and retry; with retries disabled the handler treats it as
non-recoverable, returning wait 0 with no sleep. -/
theorem dispatcher_429_cooldown {α : Type} (w : ℚ) (hw : w ≠ 0)
    (rest : List (Attempt α)) :
    handle_http_error 429 w true = ([900], some 1) ∧
    handle_http_error 429 w false = ([], some 0) ∧
    runDispatch (Attempt.err 429 :: rest) w =
      (900 :: (runDispatch rest 1).1, (runDispatch rest 1).2) := by
  have h429 : handle_http_error 429 w true = ([900], some 1) := by
    simp [handle_http_error]
    norm_num
  refine ⟨h429, by simp [handle_http_error], ?_⟩
  rw [runDispatch_err_retry 429 _ _ hw _ _ h429]
  rfl

/-- Witness for C2: a single 429 followed by a success sleeps `[900]` and
returns the payload. -/
theorem dispatcher_429_cooldown_witness :
    runDispatch [Attempt.err 429, Attempt.ok (5 : Nat)] 1 =
      ([900], Except.ok (some 5)) := by
  have h := (dispatcher_429_cooldown (α := Nat) 1 (by norm_num) [Attempt.ok 5]).2.2
  rw [h]
  rw [runDispatch_ok _ _ _ (by norm_num : (1 : ℚ) ≠ 0)]

/-- Claim C3: on a 401, 403 or 404 error the handler returns wait 0 with no
sleep, the retry loop exits without retrying, and the caller observes an
absent result (`None`) rather than an exception — for any remaining
simulated attempts. -/
theorem dispatcher_client_errors {α : Type} (c : Nat)
    (hc : c = 401 ∨ c = 403 ∨ c = 404) (w : ℚ) (hw : w ≠ 0)
    (rest : List (Attempt α)) :
    handle_http_error c w true = ([], some 0) ∧
    runDispatch (Attempt.err c :: rest) w = ([], Except.ok Option.none) := by
  have hcl : handle_http_error c w true = ([], some 0) := by
    rcases hc with rfl | rfl | rfl <;> simp [handle_http_error]
  refine ⟨hcl, ?_⟩
  rw [runDispatch_err_retry c _ _ hw _ _ hcl, runDispatch_zero]
  rfl

/-- Witness for C3: a 404 followed by a would-be success still yields
`None` with no sleeps and no exception. -/
theorem dispatcher_client_errors_witness :
    runDispatch [Attempt.err 404, Attempt.ok (3 : Nat)] 1 =
      ([], Except.ok Option.none) :=
  (dispatcher_client_errors 404 (Or.inr (Or.inr rfl)) 1 (by norm_num)
    [Attempt.ok 3]).2

/-!
## The Timeline Walker: `get_user_tweets`

A simulated run is driven by a list of pages: the i-th request issued is
answered with the i-th page, and an exhausted page list answers with an
empty result (Python's falsy response), which ends the loop.  The walk
returns the transcript of (request kwargs, response page) pairs together
with the accumulated tweet list.
-/

/-- A tweet, reduced to the only field the pagination logic reads. -/
structure Tweet where
  id : Int
deriving DecidableEq, Repr

/-- Python's `min(tweet['id'] for tweet in results)`; only evaluated on a nonempty
page in the source. -/
def minId (page : List Tweet) : Int := ((page.map fun t => t.id).min?).getD 0

lemma foldl_min_le_seed (xs : List Int) : ∀ (x : Int), xs.foldl min x ≤ x := by
  induction xs with
  | nil => intro x; exact le_refl x
  | cons y ys ih =>
    intro x
    calc (y :: ys).foldl min x = ys.foldl min (min x y) := rfl
    _ ≤ min x y := ih (min x y)
    _ ≤ x := min_le_left x y

lemma foldl_min_le (xs : List Int) :
    ∀ (x b : Int), b ∈ x :: xs → xs.foldl min x ≤ b := by
  induction xs with
  | nil =>
    intro x b hb
    have : b = x := by simpa using hb
    simp [this]
  | cons y ys ih =>
    intro x b hb
    have hfold : (y :: ys).foldl min x = ys.foldl min (min x y) := rfl
    rcases List.mem_cons.1 hb with rfl | hb2
    · rw [hfold]
      exact (foldl_min_le_seed ys (min b y)).trans (min_le_left b y)
    · rcases List.mem_cons.1 hb2 with rfl | hb3
      · rw [hfold]
        exact (foldl_min_le_seed ys (min x b)).trans (min_le_right x b)
      · rw [hfold]
        exact ih (min x y) b (List.mem_cons_of_mem _ hb3)

lemma minId_le {page : List Tweet} {t : Tweet} (ht : t ∈ page) :
    minId page ≤ t.id := by
  rcases page with _ | ⟨u, us⟩
  · cases ht
  · have hid : t.id ∈ u.id :: us.map (fun t => t.id) := by
      rcases List.mem_cons.1 ht with rfl | h
      · exact List.mem_cons_self _ _
      · exact List.mem_cons_of_mem _ (List.mem_map_of_mem _ h)
    have : minId (u :: us) = (us.map fun t => t.id).foldl min u.id := by
      simp [minId, List.min?]
    rw [this]
    exact foldl_min_le _ _ _ hid

lemma minId_mem {page : List Tweet} (hp : page ≠ []) :
    ∃ t ∈ page, t.id = minId page := by
  rcases page with _ | ⟨u, us⟩
  · exact absurd rfl hp
  · have hmem : minId (u :: us) ∈ (u :: us).map fun t => t.id := by
      apply List.min?_mem (a := minId (u :: us)) (fun a b => min_choice a b)
      simp [minId, List.min?]
    rcases List.mem_map.1 hmem with ⟨t, ht, hid⟩
    exact ⟨t, ht, hid⟩

/-- Truthiness of the `max_tweets` parameter (`None` and `0` are falsy). -/
def truthyN : Option Int → Bool
  | Option.none => false
  | some m => m != 0

/-- The `count` value set on each iteration of `get_user_tweets`:
`min(count, max_tweets - len(tweets)) if max_tweets else count` with
`count = 200`. -/
def tlCount (maxT : Option Int) (tweets : List Tweet) : Int :=
  match maxT with
  | some m => if m ≠ 0 then min 200 (m - (tweets.length : Int)) else 200
  | Option.none => 200

/-- The request mapping one iteration of `get_user_tweets` sends: `count`
always set, `max_id` set to one less than the minimum id of the previous
response once tweets have accumulated. -/
def tlRequest (maxT : Option Int) (kwargs : Kwargs) (tweets prev : List Tweet) :
    Kwargs :=
  if tweets.isEmpty then setParam kwargs "count" (PVal.num (tlCount maxT tweets))
  else
    setParam (setParam kwargs "count" (PVal.num (tlCount maxT tweets)))
      "max_id" (PVal.num (minId prev - 1))

/-- The test `max_tweets and len(tweets) >= max_tweets`: the post-append stop test. -/
def tlStop (maxT : Option Int) (len : Nat) : Bool :=
  truthyN maxT && ((maxT.getD 0) ≤ (len : Int))

/-- The paging loop of `get_user_tweets`.  `kwargs` is the request mapping
carried across iterations, `tweets` the accumulated result, and `prev` the
previous iteration's response (`results` in the source, read only when
`tweets` is nonempty).  Each iteration sets `count`, sets `max_id` from the
second page on, issues the request, and stops on an empty response or when
`max_tweets` is reached; an exhausted page list answers the next request
with an empty page. -/
def timeline_go (maxT : Option Int) :
    List (List Tweet) → Kwargs → List Tweet → List Tweet →
      List (Kwargs × List Tweet) × List Tweet
  | [], kwargs, tweets, prev => ([(tlRequest maxT kwargs tweets prev, [])], tweets)
  | page :: rest, kwargs, tweets, prev =>
    if page.isEmpty then ([(tlRequest maxT kwargs tweets prev, page)], tweets)
    else
      if tlStop maxT (tweets ++ page).length then
        ([(tlRequest maxT kwargs tweets prev, page)], tweets ++ page)
      else
        ((tlRequest maxT kwargs tweets prev, page) ::
            (timeline_go maxT rest (tlRequest maxT kwargs tweets prev)
              (tweets ++ page) page).1,
         (timeline_go maxT rest (tlRequest maxT kwargs tweets prev)
            (tweets ++ page) page).2)

/-- The initial `kwargs` of `get_user_tweets`: `screen_name` if truthy,
else `user_id` if truthy, else neither. -/
def initSubject (screen_name user_id : Option PVal) : Kwargs :=
  if truthyO screen_name then [("screen_name", screen_name.getD (PVal.num 0))]
  else if truthyO user_id then [("user_id", user_id.getD (PVal.num 0))]
  else []

/-- Function `get_user_tweets(endpoint, screen_name, user_id, max_tweets)`, simulated
against `pages`. -/
def get_user_tweets (pages : List (List Tweet))
    (screen_name : Option PVal := Option.none)
    (user_id : Option PVal := Option.none)
    (max_tweets : Option Int := Option.none) :
    List (Kwargs × List Tweet) × List Tweet :=
  timeline_go max_tweets pages (initSubject screen_name user_id) [] []

/-- Function `get_home_timeline(max_tweets)` forwards `max_tweets` positionally, so
it becomes `get_user_tweets`'s `screen_name` argument and the walk's own
`max_tweets` stays `None`. -/
def get_home_timeline (pages : List (List Tweet))
    (max_tweets : Option Int := Option.none) :
    List (Kwargs × List Tweet) × List Tweet :=
  get_user_tweets pages (max_tweets.map fun n => PVal.num n) Option.none Option.none

lemma tlRequest_lookup_count (maxT : Option Int) (kwargs : Kwargs)
    (tweets prev : List Tweet) :
    (tlRequest maxT kwargs tweets prev).lookup "count" =
      some (PVal.num (tlCount maxT tweets)) := by
  unfold tlRequest
  by_cases h : tweets.isEmpty
  · rw [if_pos h, lookup_setParam_self]
  · rw [if_neg h, lookup_setParam_ne _ _ _ _ (by decide), lookup_setParam_self]

lemma tlRequest_lookup_max_id_start (maxT : Option Int) (kwargs : Kwargs)
    (prev : List Tweet) :
    (tlRequest maxT kwargs [] prev).lookup "max_id" = kwargs.lookup "max_id" := by
  unfold tlRequest
  rw [if_pos (by simp), lookup_setParam_ne _ _ _ _ (by decide)]

lemma tlRequest_lookup_max_id (maxT : Option Int) (kwargs : Kwargs)
    (tweets prev : List Tweet) (h : tweets ≠ []) :
    (tlRequest maxT kwargs tweets prev).lookup "max_id" =
      some (PVal.num (minId prev - 1)) := by
  unfold tlRequest
  rw [if_neg (by simpa using h), lookup_setParam_self]

lemma tlRequest_lookup_other (maxT : Option Int) (kwargs : Kwargs)
    (tweets prev : List Tweet) (k : String) (h1 : k ≠ "count") (h2 : k ≠ "max_id") :
    (tlRequest maxT kwargs tweets prev).lookup k = kwargs.lookup k := by
  unfold tlRequest
  by_cases h : tweets.isEmpty
  · rw [if_pos h, lookup_setParam_ne _ _ _ _ h1]
  · rw [if_neg h, lookup_setParam_ne _ _ _ _ h2, lookup_setParam_ne _ _ _ _ h1]

lemma timeline_go_chain (maxT : Option Int) (pages : List (List Tweet)) :
    ∀ (kwargs : Kwargs) (tweets prev : List Tweet),
      (timeline_go maxT pages kwargs tweets prev).1 ≠ [] ∧
      (tweets ≠ [] → ∀ e ∈ (timeline_go maxT pages kwargs tweets prev).1.head?,
          e.1.lookup "max_id" = some (PVal.num (minId prev - 1))) ∧
      (tweets = [] → ∀ e ∈ (timeline_go maxT pages kwargs tweets prev).1.head?,
          e.1.lookup "max_id" = kwargs.lookup "max_id") ∧
      List.Chain'
        (fun a b => b.1.lookup "max_id" = some (PVal.num (minId a.2 - 1)) ∧ a.2 ≠ [])
        (timeline_go maxT pages kwargs tweets prev).1 := by
  induction pages with
  | nil =>
    intro kwargs tweets prev
    refine ⟨by simp [timeline_go], ?_, ?_, by simp [timeline_go]⟩
    · intro ht e he
      simp [timeline_go] at he
      subst he
      exact tlRequest_lookup_max_id maxT kwargs tweets prev ht
    · intro ht e he
      subst ht
      simp [timeline_go] at he
      subst he
      exact tlRequest_lookup_max_id_start maxT kwargs prev
  | cons page rest ih =>
    intro kwargs tweets prev
    by_cases hpe : page.isEmpty
    · refine ⟨by simp [timeline_go, hpe], ?_, ?_, by simp [timeline_go, hpe]⟩
      · intro ht e he
        simp [timeline_go, hpe] at he
        subst he
        exact tlRequest_lookup_max_id maxT kwargs tweets prev ht
      · intro ht e he
        subst ht
        simp [timeline_go, hpe] at he
        subst he
        exact tlRequest_lookup_max_id_start maxT kwargs prev
    · by_cases hmax : tlStop maxT ((tweets ++ page).length) = true
      · have hstop : timeline_go maxT (page :: rest) kwargs tweets prev =
            ([(tlRequest maxT kwargs tweets prev, page)], tweets ++ page) := by
          rw [timeline_go, if_neg hpe, if_pos hmax]
        refine ⟨by rw [hstop]; exact List.cons_ne_nil _ _, ?_, ?_,
          by rw [hstop]; simp⟩
        · intro ht e he
          rw [hstop] at he
          simp at he
          subst he
          exact tlRequest_lookup_max_id maxT kwargs tweets prev ht
        · intro ht e he
          subst ht
          rw [hstop] at he
          simp at he
          subst he
          exact tlRequest_lookup_max_id_start maxT kwargs prev
      · have hpne : page ≠ [] := by simpa using hpe
        have htp : tweets ++ page ≠ [] := by simp [hpne]
        obtain ⟨ihne, ihhead, _, ihchain⟩ :=
          ih (tlRequest maxT kwargs tweets prev) (tweets ++ page) page
        have hgo : (timeline_go maxT (page :: rest) kwargs tweets prev).1 =
            (tlRequest maxT kwargs tweets prev, page) ::
              (timeline_go maxT rest (tlRequest maxT kwargs tweets prev)
                (tweets ++ page) page).1 := by
          rw [timeline_go, if_neg hpe]
          rw [if_neg hmax]
        refine ⟨by rw [hgo]; exact List.cons_ne_nil _ _, ?_, ?_, ?_⟩
        · intro ht e he
          rw [hgo] at he
          simp at he
          subst he
          exact tlRequest_lookup_max_id maxT kwargs tweets prev ht
        · intro ht e he
          subst ht
          rw [hgo] at he
          simp at he
          subst he
          exact tlRequest_lookup_max_id_start maxT kwargs prev
        · rw [hgo, List.chain'_cons']
          refine ⟨?_, ihchain⟩
          intro y hy
          exact ⟨ihhead htp y hy, hpne⟩

lemma initSubject_lookup_max_id (sn uid : Option PVal) :
    (initSubject sn uid).lookup "max_id" = Option.none := by
  have h1 : ("max_id" == "screen_name") = false := by decide
  have h2 : ("max_id" == "user_id") = false := by decide
  unfold initSubject
  split_ifs <;> simp [List.lookup, h1, h2]

/-- Claim C5: in every Timeline Walker run, the first request carries no
`max_id`; from the second request on, each request's `max_id` equals one
less than the minimum id of the previous page, so it excludes every id
observed in that page; and whenever the server honours the requested
bounds, consecutive `max_id` bounds strictly decrease. -/
theorem timeline_max_id_pagination (pages : List (List Tweet))
    (sn uid : Option PVal) (maxT : Option Int) :
    (∀ e ∈ (get_user_tweets pages sn uid maxT).1.head?,
        e.1.lookup "max_id" = Option.none) ∧
    List.Chain'
      (fun a b => b.1.lookup "max_id" = some (PVal.num (minId a.2 - 1)) ∧
        ∀ t ∈ a.2, ∀ m : Int, b.1.lookup "max_id" = some (PVal.num m) → m < t.id)
      (get_user_tweets pages sn uid maxT).1 ∧
    List.Chain'
      (fun a b => ∀ ma mb : Int, a.1.lookup "max_id" = some (PVal.num ma) →
        b.1.lookup "max_id" = some (PVal.num mb) →
        (∀ t ∈ a.2, t.id ≤ ma) → mb < ma)
      (get_user_tweets pages sn uid maxT).1 := by
  obtain ⟨hne, _, hhead0, hchain⟩ :=
    timeline_go_chain maxT pages (initSubject sn uid) [] []
  refine ⟨?_, ?_, ?_⟩
  · intro e he
    rw [hhead0 rfl e he, initSubject_lookup_max_id]
  · refine hchain.imp ?_
    rintro a b ⟨hb, hane⟩
    refine ⟨hb, ?_⟩
    intro t ht m hm
    rw [hb] at hm
    have hm2 : m = minId a.2 - 1 := by
      injection Option.some.inj hm with h
      omega
    have := minId_le ht
    omega
  · refine hchain.imp ?_
    rintro a b ⟨hb, hane⟩
    intro ma mb hma hmb honor
    rw [hb] at hmb
    have hmb2 : mb = minId a.2 - 1 := by
      injection Option.some.inj hmb with h
      omega
    obtain ⟨t0, ht0, hid0⟩ := minId_mem hane
    have := honor t0 ht0
    omega

def c6page1 : List Tweet :=
  [⟨100⟩, ⟨99⟩, ⟨98⟩, ⟨97⟩, ⟨96⟩, ⟨95⟩, ⟨94⟩, ⟨93⟩, ⟨92⟩, ⟨91⟩]

def c6page2 : List Tweet :=
  [⟨90⟩, ⟨89⟩, ⟨88⟩, ⟨87⟩, ⟨86⟩, ⟨85⟩, ⟨84⟩, ⟨83⟩, ⟨82⟩, ⟨81⟩]

/-- Claim C6: with pages of ids 100..91, 90..81 and then an empty page,
and `max_tweets = 15`, the walk stops after the second page (two requests)
and returns all 20 tweets: the cap is checked only after appending a whole
page, and the final page is not truncated, so the result exceeds
`max_tweets`. -/
theorem timeline_no_midpage_truncation :
    (get_user_tweets [c6page1, c6page2, []] Option.none Option.none (some 15)).2 =
        c6page1 ++ c6page2 ∧
    (get_user_tweets [c6page1, c6page2, []] Option.none Option.none (some 15)).1.length = 2 ∧
    (c6page1 ++ c6page2).length = 20 ∧
    15 < ((get_user_tweets [c6page1, c6page2, []] Option.none Option.none (some 15)).2).length := by
  decide

lemma timeline_go_nocap (pages : List (List Tweet)) :
    ∀ (kwargs : Kwargs) (tweets prev : List Tweet), (∀ p ∈ pages, p ≠ []) →
      (timeline_go Option.none pages kwargs tweets prev).2 = tweets ++ pages.flatten ∧
      (timeline_go Option.none pages kwargs tweets prev).1.length = pages.length + 1 ∧
      (∀ e ∈ (timeline_go Option.none pages kwargs tweets prev).1,
          e.1.lookup "count" = some (PVal.num 200)) ∧
      (∀ e ∈ (timeline_go Option.none pages kwargs tweets prev).1.head?,
          e.1.lookup "screen_name" = kwargs.lookup "screen_name") := by
  induction pages with
  | nil =>
    intro kwargs tweets prev _
    refine ⟨by simp [timeline_go], by simp [timeline_go], ?_, ?_⟩
    · intro e he
      simp [timeline_go] at he
      subst he
      rw [tlRequest_lookup_count]
      rfl
    · intro e he
      simp [timeline_go] at he
      subst he
      exact tlRequest_lookup_other Option.none kwargs tweets prev "screen_name"
        (by decide) (by decide)
  | cons page rest ih =>
    intro kwargs tweets prev hp
    have hpne : page ≠ [] := hp page (List.mem_cons_self _ _)
    have hpe : ¬ page.isEmpty = true := by simpa using hpne
    have hmax : ¬ tlStop Option.none ((tweets ++ page).length) = true := by
      simp [tlStop, truthyN]
    have hgo : timeline_go Option.none (page :: rest) kwargs tweets prev =
        ((tlRequest Option.none kwargs tweets prev, page) ::
            (timeline_go Option.none rest (tlRequest Option.none kwargs tweets prev)
              (tweets ++ page) page).1,
         (timeline_go Option.none rest (tlRequest Option.none kwargs tweets prev)
            (tweets ++ page) page).2) := by
      rw [timeline_go, if_neg hpe, if_neg hmax]
    obtain ⟨ih1, ih2, ih3, _⟩ :=
      ih (tlRequest Option.none kwargs tweets prev) (tweets ++ page) page
        (fun p hq => hp p (List.mem_cons_of_mem _ hq))
    refine ⟨?_, ?_, ?_, ?_⟩
    · rw [hgo]
      simp only [ih1, List.flatten_cons, List.append_assoc]
    · rw [hgo]
      simp [ih2]
    · intro e he
      rw [hgo] at he
      rcases List.mem_cons.1 he with rfl | he2
      · rw [tlRequest_lookup_count]
        rfl
      · exact ih3 e he2
    · intro e he
      rw [hgo] at he
      simp at he
      subst he
      exact tlRequest_lookup_other Option.none kwargs tweets prev "screen_name"
        (by decide) (by decide)

lemma initSubject_num (N : Int) (hN : N ≠ 0) :
    initSubject (some (PVal.num N)) Option.none = [("screen_name", PVal.num N)] := by
  have : truthyO (some (PVal.num N)) = true := by
    simp [truthyO, PVal.truthyV, hN]
  simp [initSubject, this]

/-- Claim C10: `get_home_timeline(max_tweets=N)` passes `N` positionally
into `get_user_tweets`, where it lands in the `screen_name` parameter: the
first request carries `screen_name = N`, the walk's own `max_tweets` stays
`None` (every request asks for the full page size 200), and no cap is
applied — the walk returns every tweet of every page, regardless of `N`. -/
theorem home_timeline_forwards_max_tweets_as_screen_name
    (pages : List (List Tweet)) (N : Int) (hN : N ≠ 0)
    (hp : ∀ p ∈ pages, p ≠ []) :
    (∀ e ∈ (get_home_timeline pages (some N)).1.head?,
        e.1.lookup "screen_name" = some (PVal.num N)) ∧
    (∀ e ∈ (get_home_timeline pages (some N)).1,
        e.1.lookup "count" = some (PVal.num 200)) ∧
    (get_home_timeline pages (some N)).2 = pages.flatten ∧
    (get_home_timeline pages (some N)).1.length = pages.length + 1 := by
  have hunfold : get_home_timeline pages (some N) =
      timeline_go Option.none pages [("screen_name", PVal.num N)] [] [] := by
    rw [get_home_timeline, get_user_tweets]
    rw [show (some N).map (fun n => PVal.num n) = some (PVal.num N) from rfl]
    rw [initSubject_num N hN]
  obtain ⟨h1, h2, h3, h4⟩ :=
    timeline_go_nocap pages [("screen_name", PVal.num N)] [] [] hp
  refine ⟨?_, ?_, ?_, ?_⟩
  · intro e he
    rw [hunfold] at he
    rw [h4 e he]
    simp [List.lookup]
  · intro e he
    rw [hunfold] at he
    exact h3 e he
  · rw [hunfold, h1]
    rfl
  · rw [hunfold, h2]

/-- Witness for C10: three singleton pages and `N = 1` return all three
tweets — more than `N` — with `screen_name = 1` on the first request. -/
theorem home_timeline_forwards_max_tweets_as_screen_name_witness :
    (get_home_timeline [[⟨3⟩], [⟨2⟩], [⟨1⟩]] (some 1)).2 = [⟨3⟩, ⟨2⟩, ⟨1⟩] ∧
    1 < (get_home_timeline [[⟨3⟩], [⟨2⟩], [⟨1⟩]] (some 1)).2.length ∧
    (∀ e ∈ (get_home_timeline [[⟨3⟩], [⟨2⟩], [⟨1⟩]] (some 1)).1.head?,
        e.1.lookup "screen_name" = some (PVal.num 1)) := by
  have h := home_timeline_forwards_max_tweets_as_screen_name
    [[⟨3⟩], [⟨2⟩], [⟨1⟩]] 1 (by decide) (by decide)
  refine ⟨?_, ?_, h.1⟩
  · rw [h.2.2.1]
    rfl
  · rw [h.2.2.1]
    decide

/-!
## The Cursor Walker: `get_cursored_items`

A simulated run is driven by a list of per-request responses: `Option.none`
stands for a falsy response (`if not results: break`), `some r` for a
response carrying the items under the requested key and a `next_cursor`.
The walk returns the list of cursor values dispatched and the accumulated
items.
-/

/-- One truthy response of a cursored endpoint: the items stored under the
requested key, and the `next_cursor` field. -/
structure CursorResponse (α : Type) where
  items : List α
  next_cursor : Int
deriving DecidableEq, Repr

/-- The `while cursor:` loop of `get_cursored_items`.  The cursor starts at
-1; each iteration dispatches with the current cursor, breaks on a falsy
response, extends the items, breaks when `max_items` is reached, and
otherwise continues with the response's `next_cursor`.  An exhausted
response list ends the simulation. -/
def cursored_go {α : Type} (max_items : Option Int) :
    List (Option (CursorResponse α)) → Int → List α → List Int × List α
  | [], _, items => ([], items)
  | r :: rest, cursor, items =>
    if cursor = 0 then ([], items)
    else
      match r with
      | Option.none => ([cursor], items)
      | some resp =>
        if tlStop max_items ((items ++ resp.items).length) then
          ([cursor], items ++ resp.items)
        else
          (cursor ::
              (cursored_go max_items rest resp.next_cursor (items ++ resp.items)).1,
           (cursored_go max_items rest resp.next_cursor (items ++ resp.items)).2)

/-- Function `get_cursored_items(endpoint, key, count, max_items)`, simulated. -/
def get_cursored_items {α : Type} (responses : List (Option (CursorResponse α)))
    (max_items : Option Int := Option.none) : List Int × List α :=
  cursored_go max_items responses (-1) []

lemma cursored_go_nil {α : Type} (maxI : Option Int) (c : Int) (items : List α) :
    cursored_go maxI [] c items = ([], items) := rfl

lemma cursored_go_sentinel {α : Type} (maxI : Option Int)
    (r : Option (CursorResponse α)) (rest : List (Option (CursorResponse α)))
    (items : List α) :
    cursored_go maxI (r :: rest) 0 items = ([], items) := by
  cases r with
  | none => rw [cursored_go, if_pos rfl]
  | some resp => rw [cursored_go, if_pos rfl]

lemma cursored_go_falsy {α : Type} (maxI : Option Int)
    (rest : List (Option (CursorResponse α))) (c : Int) (hc : c ≠ 0)
    (items : List α) :
    cursored_go maxI (Option.none :: rest) c items = ([c], items) := by
  rw [cursored_go, if_neg hc]

lemma cursored_go_capped {α : Type} (maxI : Option Int) (resp : CursorResponse α)
    (rest : List (Option (CursorResponse α))) (c : Int) (hc : c ≠ 0)
    (items : List α) (hcap : tlStop maxI ((items ++ resp.items).length) = true) :
    cursored_go maxI (some resp :: rest) c items = ([c], items ++ resp.items) := by
  rw [cursored_go, if_neg hc]
  simp only [hcap, if_true]

lemma cursored_go_step {α : Type} (maxI : Option Int) (resp : CursorResponse α)
    (rest : List (Option (CursorResponse α))) (c : Int) (hc : c ≠ 0)
    (items : List α) (hcap : ¬ tlStop maxI ((items ++ resp.items).length) = true) :
    cursored_go maxI (some resp :: rest) c items =
      (c :: (cursored_go maxI rest resp.next_cursor (items ++ resp.items)).1,
       (cursored_go maxI rest resp.next_cursor (items ++ resp.items)).2) := by
  rw [cursored_go, if_neg hc]
  simp only [hcap, Bool.false_eq_true, if_false]

lemma cursored_go_zero {α : Type} (maxI : Option Int)
    (rs : List (Option (CursorResponse α))) (items : List α) :
    cursored_go maxI rs 0 items = ([], items) := by
  cases rs with
  | nil => rfl
  | cons r rest => exact cursored_go_sentinel maxI r rest items

lemma tlStop_iff (maxI : Option Int) (len : Nat) :
    tlStop maxI len = true ↔ ∃ m, maxI = some m ∧ m ≠ 0 ∧ m ≤ (len : Int) := by
  cases maxI with
  | none => simp [tlStop, truthyN]
  | some m =>
    simp [tlStop, truthyN]

lemma cursored_no_zero {α : Type} (maxI : Option Int) :
    ∀ (rs : List (Option (CursorResponse α))) (c : Int) (items : List α),
      (0 : Int) ∉ (cursored_go maxI rs c items).1 := by
  intro rs
  induction rs with
  | nil =>
    intro c items
    simp [cursored_go_nil]
  | cons r rest ih =>
    intro c items
    by_cases hc : c = 0
    · subst hc
      simp [cursored_go_sentinel]
    · cases r with
      | none =>
        rw [cursored_go_falsy _ _ _ hc]
        simp only [List.mem_singleton]
        omega
      | some resp =>
        by_cases hcap : tlStop maxI ((items ++ resp.items).length) = true
        · rw [cursored_go_capped _ _ _ _ hc _ hcap]
          simp only [List.mem_singleton]
          omega
        · rw [cursored_go_step _ _ _ _ hc _ hcap]
          simp only [List.mem_cons]
          push_neg
          exact ⟨by omega, ih _ _⟩

lemma cursored_go_end_reason {α : Type} (maxI : Option Int) :
    ∀ (rs : List (Option (CursorResponse α))) (c : Int) (items : List α),
      (c = 0 ∧ (cursored_go maxI rs c items).1.length = 0) ∨
      (cursored_go maxI rs c items).1.length = rs.length ∨
      ∃ k r, (cursored_go maxI rs c items).1.length = k + 1 ∧ rs.get? k = some r ∧
        (r = Option.none ∨ ∃ resp, r = some resp ∧
          (resp.next_cursor = 0 ∨
            tlStop maxI (cursored_go maxI rs c items).2.length = true)) := by
  intro rs
  induction rs with
  | nil =>
    intro c items
    right
    left
    simp [cursored_go_nil]
  | cons r rest ih =>
    intro c items
    by_cases hc : c = 0
    · refine Or.inl ⟨hc, ?_⟩
      rw [hc, cursored_go_sentinel]
      rfl
    · cases r with
      | none =>
        right
        right
        refine ⟨0, Option.none, ?_, rfl, Or.inl rfl⟩
        rw [cursored_go_falsy _ _ _ hc]
        rfl
      | some resp =>
        by_cases hcap : tlStop maxI ((items ++ resp.items).length) = true
        · right
          right
          refine ⟨0, some resp, by rw [cursored_go_capped _ _ _ _ hc _ hcap]; rfl, rfl, ?_⟩
          refine Or.inr ⟨resp, rfl, Or.inr ?_⟩
          rw [cursored_go_capped _ _ _ _ hc _ hcap]
          exact hcap
        · have hrw := cursored_go_step maxI resp rest c hc items hcap
          rcases ih resp.next_cursor (items ++ resp.items) with ⟨hz, hlen⟩ | hlen | ⟨k, r2, hlen, hget, hr⟩
          · right
            right
            refine ⟨0, some resp, ?_, rfl, Or.inr ⟨resp, rfl, Or.inl hz⟩⟩
            rw [hrw]
            simp [hlen]
          · right
            left
            rw [hrw]
            simp [hlen]
          · right
            right
            refine ⟨k + 1, r2, ?_, by simpa using hget, ?_⟩
            · rw [hrw]
              simp [hlen]
            · rcases hr with rfl | ⟨resp2, rfl, hre⟩
              · exact Or.inl rfl
              · refine Or.inr ⟨resp2, rfl, ?_⟩
                rcases hre with h0 | hstop
                · exact Or.inl h0
                · refine Or.inr ?_
                  rw [hrw]
                  exact hstop

/-- Claim C7: with responses carrying the cursor sequence `-1 → 7 → 0`, the
Cursor Walker issues exactly two dispatches (cursors -1 and 7), stops
because the next cursor is the end sentinel 0 even if further responses
are available, and returns the two pages concatenated in order.  In
general a walk ends only because the simulated responses ran out, or at a
dispatch whose response was nothing, or whose next cursor was the
sentinel, or after which the accumulated count reached `max_items`; and
the sentinel cursor 0 is never dispatched. -/
theorem cursor_walker_termination {α : Type} :
    (∀ (p1 p2 : List α) (rest : List (Option (CursorResponse α))),
      get_cursored_items (some ⟨p1, 7⟩ :: some ⟨p2, 0⟩ :: rest) Option.none =
        ([-1, 7], p1 ++ p2)) ∧
    (∀ (responses : List (Option (CursorResponse α))) (maxI : Option Int),
      (0 : Int) ∉ (get_cursored_items responses maxI).1) ∧
    (∀ (responses : List (Option (CursorResponse α))) (maxI : Option Int),
      (get_cursored_items responses maxI).1.length = responses.length ∨
      ∃ k r, (get_cursored_items responses maxI).1.length = k + 1 ∧
        responses.get? k = some r ∧
        (r = Option.none ∨ ∃ resp, r = some resp ∧
          (resp.next_cursor = 0 ∨
            ∃ m, maxI = some m ∧ m ≠ 0 ∧
              m ≤ ((get_cursored_items responses maxI).2.length : Int)))) := by
  refine ⟨?_, ?_, ?_⟩
  · intro p1 p2 rest
    have h1 : ¬ tlStop Option.none (([] ++ p1 : List α).length) = true := by
      simp [tlStop, truthyN]
    have h2 : ¬ tlStop Option.none ((([] ++ p1) ++ p2 : List α).length) = true := by
      simp [tlStop, truthyN]
    rw [get_cursored_items,
      cursored_go_step Option.none ⟨p1, 7⟩ _ (-1) (by norm_num) [] h1]
    rw [cursored_go_step Option.none ⟨p2, 0⟩ _ 7 (by norm_num) ([] ++ p1) h2]
    rw [cursored_go_zero]
    simp
  · intro responses maxI
    exact cursored_no_zero maxI responses (-1) []
  · intro responses maxI
    rcases cursored_go_end_reason maxI responses (-1) [] with ⟨hz, _⟩ | h | h
    · norm_num at hz
    · exact Or.inl h
    · rcases h with ⟨k, r, hlen, hget, hr⟩
      refine Or.inr ⟨k, r, hlen, hget, ?_⟩
      rcases hr with rfl | ⟨resp, rfl, hre⟩
      · exact Or.inl rfl
      · refine Or.inr ⟨resp, rfl, ?_⟩
        rcases hre with h0 | hstop
        · exact Or.inl h0
        · exact Or.inr ((tlStop_iff maxI _).1 hstop)

/-!
## The Batch Lookup Driver: `get_items_by_lookup`

A simulated run is driven by a list of per-chunk responses; an empty
response list element is Python's falsy response (`if not response:
break`).  The driver returns the comma-joined chunk string sent on each
dispatch and the concatenated results.
-/

/-- Python's `','.join(str(item) for item in items[:100])`. -/
def chunkStr (items : List Int) : String :=
  String.intercalate "," ((items.take 100).map toString)

/-- The `while items:` loop of `get_items_by_lookup`: send the first 100
items as one comma-separated string, stop on a falsy response, otherwise
accumulate and drop the sent chunk.  An exhausted response list answers
the next request with a falsy response. -/
def get_items_by_lookup {β : Type} :
    List (List β) → List Int → List String × List β
  | _, [] => ([], [])
  | [], items => ([chunkStr items], [])
  | r :: rest, items =>
    if r.isEmpty then ([chunkStr items], [])
    else
      (chunkStr items :: (get_items_by_lookup rest (items.drop 100)).1,
       r ++ (get_items_by_lookup rest (items.drop 100)).2)

lemma get_items_by_lookup_nil_items {β : Type} (rsps : List (List β)) :
    get_items_by_lookup rsps [] = ([], []) := by
  cases rsps with
  | nil => rfl
  | cons r rest => rfl

lemma get_items_by_lookup_exhausted {β : Type} (i : Int) (is : List Int) :
    get_items_by_lookup ([] : List (List β)) (i :: is) = ([chunkStr (i :: is)], []) := by
  rw [get_items_by_lookup]
  all_goals simp

lemma get_items_by_lookup_falsy {β : Type} (r : List β) (rest : List (List β))
    (i : Int) (is : List Int) (hre : r.isEmpty = true) :
    get_items_by_lookup (r :: rest) (i :: is) = ([chunkStr (i :: is)], []) := by
  rw [get_items_by_lookup, if_pos hre]
  all_goals simp

lemma get_items_by_lookup_chunk {β : Type} (r : List β) (rest : List (List β))
    (i : Int) (is : List Int) (hre : ¬ r.isEmpty = true) :
    get_items_by_lookup (r :: rest) (i :: is) =
      (chunkStr (i :: is) :: (get_items_by_lookup rest ((i :: is).drop 100)).1,
       r ++ (get_items_by_lookup rest ((i :: is).drop 100)).2) := by
  rw [get_items_by_lookup, if_neg hre]
  all_goals simp

lemma get_items_by_lookup_stop {β : Type} (rsps : List (List β)) (ids : List Int) :
    ∀ k, rsps.get? k = some ([] : List β) →
      (get_items_by_lookup rsps ids).1.length ≤ k + 1 := by
  induction rsps generalizing ids with
  | nil =>
    intro k hk
    simp at hk
  | cons r rest ih =>
    intro k hk
    cases ids with
    | nil =>
      simp [get_items_by_lookup_nil_items]
    | cons i is =>
      by_cases hre : r.isEmpty
      · rw [get_items_by_lookup_falsy r rest i is hre]
        simp
      · rw [get_items_by_lookup_chunk r rest i is hre]
        cases k with
        | zero =>
          simp at hk
          rw [hk] at hre
          simp at hre
        | succ k2 =>
          simp only [List.length_cons]
          have := ih ((i :: is).drop 100) k2 (by simpa using hk)
          omega

/-- Claim C8: with 250 input ids and three nonempty chunk responses, the
driver makes exactly three dispatches whose chunks are the first 100, next
100, and last 50 ids, each joined into one comma-separated string; the
result is the concatenation of the three responses in chunk order, so its
length is the sum of the per-chunk response lengths.  If any chunk call
returns nothing the driver stops at that dispatch and keeps what it has. -/
theorem batch_lookup_chunking {β : Type} (ids : List Int)
    (hlen : ids.length = 250) (r1 r2 r3 : List β)
    (h1 : r1 ≠ []) (h2 : r2 ≠ []) (h3 : r3 ≠ []) (rest : List (List β)) :
    get_items_by_lookup (r1 :: r2 :: r3 :: rest) ids =
      ([chunkStr ids, chunkStr (ids.drop 100), chunkStr (ids.drop 200)],
        r1 ++ (r2 ++ r3)) ∧
    (ids.take 100).length = 100 ∧
    ((ids.drop 100).take 100).length = 100 ∧
    (ids.drop 200).length = 50 ∧
    (get_items_by_lookup (r1 :: r2 :: r3 :: rest) ids).2.length =
      r1.length + r2.length + r3.length ∧
    (∀ (rsps : List (List β)) (ids2 : List Int) (k : Nat),
      rsps.get? k = some ([] : List β) →
        (get_items_by_lookup rsps ids2).1.length ≤ k + 1) := by
  have hne : ∀ (l : List β), l ≠ [] → ¬ l.isEmpty = true := by
    intro l hl
    simpa using hl
  have hids1 : ids ≠ [] := by
    intro h
    rw [h] at hlen
    simp at hlen
  have hids2 : ids.drop 100 ≠ [] := by
    intro h
    have := congrArg List.length h
    simp [hlen] at this
  have hids3 : ids.drop 200 ≠ [] := by
    intro h
    have := congrArg List.length h
    simp [hlen] at this
  have hids4 : ids.drop 300 = [] := by
    apply List.eq_nil_of_length_eq_zero
    simp [hlen]
  have hmain : get_items_by_lookup (r1 :: r2 :: r3 :: rest) ids =
      ([chunkStr ids, chunkStr (ids.drop 100), chunkStr (ids.drop 200)],
        r1 ++ (r2 ++ r3)) := by
    obtain ⟨i, is, rfl⟩ : ∃ i is, ids = i :: is := by
      cases ids with
      | nil => exact absurd rfl hids1
      | cons i is => exact ⟨i, is, rfl⟩
    rw [get_items_by_lookup_chunk r1 _ i is (hne r1 h1)]
    obtain ⟨j, js, hjs⟩ : ∃ j js, (i :: is).drop 100 = j :: js := by
      cases hd : (i :: is).drop 100 with
      | nil => exact absurd hd hids2
      | cons j js => exact ⟨j, js, rfl⟩
    rw [hjs, get_items_by_lookup_chunk r2 _ j js (hne r2 h2)]
    obtain ⟨l, ls, hls⟩ : ∃ l ls, (j :: js).drop 100 = l :: ls := by
      cases hd : (j :: js).drop 100 with
      | nil =>
        rw [← hjs, List.drop_drop] at hd
        exact absurd (by simpa using hd) hids3
      | cons l ls => exact ⟨l, ls, rfl⟩
    rw [hls, get_items_by_lookup_chunk r3 _ l ls (hne r3 h3)]
    have hdrop3 : (l :: ls).drop 100 = [] := by
      have : (l :: ls).drop 100 = (i :: is).drop 300 := by
        rw [← hls, ← hjs, List.drop_drop, List.drop_drop]
      rw [this]
      exact hids4
    rw [hdrop3, get_items_by_lookup_nil_items]
    have hl200 : (l :: ls) = (i :: is).drop 200 := by
      rw [← hls, ← hjs, List.drop_drop]
    rw [← hjs, hl200]
    simp
  refine ⟨hmain, ?_, ?_, ?_, ?_, fun rsps ids2 => get_items_by_lookup_stop rsps ids2⟩
  · simp [List.length_take, hlen]
  · simp [List.length_take, List.length_drop, hlen]
  · simp [List.length_drop, hlen]
  · rw [hmain]
    simp [List.length_append]
    omega

/-- Witness for C8: 250 zero ids with three singleton responses produce
three dispatches and the three responses concatenated. -/
theorem batch_lookup_chunking_witness :
    (get_items_by_lookup [[10], [20], [30]] (List.replicate 250 (0 : Int))).2 =
        [10, 20, 30] ∧
    (get_items_by_lookup [[10], [20], [30]] (List.replicate 250 (0 : Int))).1.length = 3 := by
  have h := batch_lookup_chunking (List.replicate 250 (0 : Int))
    (by rw [List.length_replicate]) [10] [20] [30]
    (by simp) (by simp) (by simp) []
  refine ⟨?_, ?_⟩
  · rw [h.1]
    rfl
  · rw [h.1]
    rfl

/-!
## The Rate Limit Query: `get_rate_limits`

The rate-limit payload is the `resources` mapping: category name to a
mapping of subcategory name to a limit value.  `Option.none` stands for a
falsy response of the underlying call.
-/

/-- The possible values `get_rate_limits` evaluates to: Python returns
`None`, the full resource mapping, one category's mapping, or one
subcategory's entry; an unknown subcategory raises `KeyError`. -/
inductive RLValue (V : Type) where
  | nothing
  | resMap (m : List (String × List (String × V)))
  | catMap (m : List (String × V))
  | val (v : V)
  | keyError
deriving DecidableEq, Repr

/-- Function `get_rate_limits(key_0, key_1)` over a simulated response.  `key_1`
equal to the empty string is falsy, as in `limits[key_1] if key_1 else
limits`. -/
def get_rate_limits {V : Type}
    (payload : Option (List (String × List (String × V))))
    (key_0 key_1 : Option String := Option.none) : RLValue V :=
  match payload with
  | Option.none => RLValue.nothing
  | some res =>
    match key_0 with
    | Option.none => RLValue.resMap res
    | some k0 =>
      match res.lookup k0 with
      | Option.none => RLValue.resMap res
      | some cat =>
        match key_1 with
        | Option.none => RLValue.catMap cat
        | some k1 =>
          if k1 = "" then RLValue.catMap cat
          else
            match cat.lookup k1 with
            | some v => RLValue.val v
            | Option.none => RLValue.keyError

/-- Claim C9: with a truthy payload, an absent category returns the full
resource mapping; a present but unknown category also returns the full
mapping unchanged; a known category narrows to that category's mapping,
and further to the subcategory's entry when a known subcategory is given;
and a falsy underlying response yields nothing. -/
theorem rate_limits_narrowing {V : Type}
    (res : List (String × List (String × V))) (k0 k1 : String)
    (cat : List (String × V)) (v : V) (k0o k1o : Option String) :
    (get_rate_limits (some res) Option.none k1o = RLValue.resMap res) ∧
    (res.lookup k0 = Option.none →
      get_rate_limits (some res) (some k0) k1o = RLValue.resMap res) ∧
    (res.lookup k0 = some cat →
      get_rate_limits (some res) (some k0) Option.none = RLValue.catMap cat) ∧
    (res.lookup k0 = some cat → k1 ≠ "" → cat.lookup k1 = some v →
      get_rate_limits (some res) (some k0) (some k1) = RLValue.val v) ∧
    (get_rate_limits (V := V) Option.none k0o k1o = RLValue.nothing) := by
  refine ⟨rfl, ?_, ?_, ?_, rfl⟩
  · intro h
    simp [get_rate_limits, h]
  · intro h
    simp [get_rate_limits, h]
  · intro h hk1 hv
    simp [get_rate_limits, h, hk1, hv]

/-- Witness for C9: a one-category, one-subcategory mapping exercises all
four truthy-payload cases. -/
theorem rate_limits_narrowing_witness :
    (get_rate_limits (some [("statuses", [("/statuses/user_timeline", (900 : Int))])])
        Option.none Option.none = RLValue.resMap [("statuses", [("/statuses/user_timeline", 900)])]) ∧
    (get_rate_limits (some [("statuses", [("/statuses/user_timeline", (900 : Int))])])
        (some "search") Option.none = RLValue.resMap [("statuses", [("/statuses/user_timeline", 900)])]) ∧
    (get_rate_limits (some [("statuses", [("/statuses/user_timeline", (900 : Int))])])
        (some "statuses") Option.none = RLValue.catMap [("/statuses/user_timeline", 900)]) ∧
    (get_rate_limits (some [("statuses", [("/statuses/user_timeline", (900 : Int))])])
        (some "statuses") (some "/statuses/user_timeline") = RLValue.val 900) ∧
    (get_rate_limits (V := Int) Option.none (some "statuses") Option.none = RLValue.nothing) := by
  have h := rate_limits_narrowing
    [("statuses", [("/statuses/user_timeline", (900 : Int))])]
    "statuses" "/statuses/user_timeline" [("/statuses/user_timeline", (900 : Int))]
    900 (some "statuses") Option.none
  have h2 := rate_limits_narrowing
    [("statuses", [("/statuses/user_timeline", (900 : Int))])]
    "search" "/statuses/user_timeline" [("/statuses/user_timeline", (900 : Int))]
    900 (some "statuses") Option.none
  refine ⟨h.1, ?_, ?_, ?_, h.2.2.2.2⟩
  · exact h2.2.1 (by decide)
  · exact h.2.2.1 (by decide)
  · exact h.2.2.2.1 (by decide) (by decide) (by decide)

/-!
## The Search Walker: `search_tweets`

A simulated run is driven by a list of per-request responses.  A response
carries the `statuses` list and, optionally, the
`search_metadata.next_results` continuation fragment; `Option.none` for
the fragment makes reading it raise `KeyError`, which the loop catches as
the end of pagination.  The fragment is parsed by
`dict(item.split('=') for item in next_results[1:].split("&"))`: split on
every `&`, split each piece on every `=`, and build a dict from the
resulting pairs — a piece that does not split into exactly two parts makes
`dict` raise `ValueError`, which the loop does not catch.  The walk
returns the kwargs of each dispatch and either the accumulated tweets or
`Except.error ()` for the uncaught `ValueError`.
-/

/-- One simulated response of the search endpoint. -/
structure SearchResponse where
  statuses : List Tweet
  next_results : Option String
deriving DecidableEq, Repr

/-- Python's `str.split(sep)` for a one-character separator: splitting
never merges separators, and the empty string splits to `[""]`. -/
def pySplitAux (sep : Char) : List Char → List Char → List String
  | [], acc => [String.mk acc.reverse]
  | c :: cs, acc =>
    if c = sep then String.mk acc.reverse :: pySplitAux sep cs []
    else pySplitAux sep cs (c :: acc)

/-- Python's `s.split(sep)`. -/
def pySplit (s : String) (sep : Char) : List String :=
  pySplitAux sep s.data []

/-- Each piece `item.split('=')` must yield exactly two parts to be usable as a dict
entry; otherwise `dict(...)` raises `ValueError`. -/
def parsePiece (s : String) : Option (String × String) :=
  match pySplit s '=' with
  | [k, v] => some (k, v)
  | _ => Option.none

/-- Python's `dict(pairs)`: later bindings shadow earlier ones. -/
def pyDict (pairs : List (String × String)) : Kwargs :=
  pairs.foldl (fun d p => setParam d p.1 (PVal.str p.2)) []

/-- The parse `dict(item.split('=') for item in next_results[1:].split("&"))`:
`Option.none` is the uncaught `ValueError` on a malformed fragment. -/
def parseFragment (frag : String) : Option Kwargs :=
  match (pySplit (frag.drop 1) '&').mapM parsePiece with
  | some pairs => some (pyDict pairs)
  | Option.none => Option.none

/-- The `for search in range(max_requests)` loop of `search_tweets`.
From the second iteration on, the previous response's continuation
fragment is read: a missing fragment (`KeyError`) breaks the loop, a
malformed one propagates `ValueError`; otherwise its parse replaces the
kwargs wholesale.  Then the next response is consumed; an empty `statuses`
list breaks the loop. -/
def search_go (responses : List SearchResponse) :
    Nat → Nat → Kwargs → List Tweet → Option SearchResponse →
      List Kwargs × Except Unit (List Tweet)
  | 0, _, _, tweets, _ => ([], Except.ok tweets)
  | fuel + 1, idx, kwargs, tweets, prevOpt =>
    match
      (if tweets.isEmpty then Sum.inr kwargs
       else
        match prevOpt with
        | Option.none => Sum.inl (Except.ok tweets)
        | some r =>
          match r.next_results with
          | Option.none => Sum.inl (Except.ok tweets)
          | some frag =>
            match parseFragment frag with
            | Option.none => Sum.inl (Except.error ())
            | some kw => Sum.inr kw :
        Sum (Except Unit (List Tweet)) Kwargs) with
    | Sum.inl out => ([], out)
    | Sum.inr kw =>
      match responses.getD idx ⟨[], Option.none⟩ with
      | resp =>
        if resp.statuses.isEmpty then ([kw], Except.ok tweets)
        else
          (kw :: (search_go responses fuel (idx + 1) kw
              (tweets ++ resp.statuses) (some resp)).1,
           (search_go responses fuel (idx + 1) kw
              (tweets ++ resp.statuses) (some resp)).2)

/-- Function `search_tweets(query, max_requests=5)`: first request uses
`{'q': query, 'count': 100}`. -/
def search_tweets (responses : List SearchResponse) (query : String)
    (max_requests : Nat := 5) : List Kwargs × Except Unit (List Tweet) :=
  search_go responses max_requests 0
    [("q", PVal.str query), ("count", PVal.num 100)] [] Option.none

/-- Counterexample to claim C4 as stated: a malformed continuation
fragment (`"?junk"` has no `=`) does not end the walk with the tweets
accumulated so far — `dict(...)` raises `ValueError`, which the loop does
not catch, so the walk aborts with an uncaught error after one dispatch. -/
theorem search_malformed_fragment_cex :
    search_tweets [⟨[⟨1⟩], some "?junk"⟩] "foo" 5 =
      ([[("q", PVal.str "foo"), ("count", PVal.num 100)]], Except.error ()) := rfl

/-- Claim C4 (amended): a continuation fragment is parsed by splitting on
every `&` and then splitting each piece on every `=`, requiring exactly
two parts per piece; a missing fragment ends the walk with the tweets
accumulated so far, a well-formed fragment's parse becomes the next
request's parameters verbatim, but a malformed fragment raises an uncaught
error instead of ending the walk. -/
theorem search_fragment_handling (responses : List SearchResponse) (q : String)
    (t : Tweet) (ts : List Tweet) (fragO : Option String)
    (rest : List SearchResponse) (n : Nat)
    (h0 : responses = ⟨t :: ts, fragO⟩ :: rest) (hn : 2 ≤ n) :
    (fragO = Option.none →
      search_tweets responses q n =
        ([[("q", PVal.str q), ("count", PVal.num 100)]], Except.ok (t :: ts))) ∧
    (∀ frag, fragO = some frag → parseFragment frag = Option.none →
      search_tweets responses q n =
        ([[("q", PVal.str q), ("count", PVal.num 100)]], Except.error ())) ∧
    (∀ frag kw, fragO = some frag → parseFragment frag = some kw →
      (search_tweets responses q n).1.get? 1 = some kw) := by
  subst h0
  obtain ⟨m, rfl⟩ : ∃ m, n = m + 2 := ⟨n - 2, by omega⟩
  refine ⟨?_, ?_, ?_⟩
  · intro hfrag
    subst hfrag
    simp [search_tweets, search_go]
  · intro frag hf hparse
    subst hf
    simp [search_tweets, search_go, hparse]
  · intro frag kw hf hparse
    subst hf
    simp [search_tweets, search_go, hparse]
    split
    · rfl
    · simp

/-- Witness for the amended C4: a well-formed fragment `"?a=1"` is parsed
and its mapping is sent verbatim as the second request. -/
theorem search_fragment_handling_witness :
    (search_tweets [⟨[⟨1⟩], some "?a=1"⟩] "foo" 2).1.get? 1 =
      some [("a", PVal.str "1")] := by
  have h := search_fragment_handling [⟨[⟨1⟩], some "?a=1"⟩] "foo" ⟨1⟩ []
    (some "?a=1") [] 2 rfl (le_refl 2)
  exact h.2.2 "?a=1" [("a", PVal.str "1")] rfl rfl
